import Mathlib

/-!
Shallow embedding of the Hashicorp-Vault-backed wallet of this repository
(`accounts/vault/hashicorp_wallet.go`, `accounts/vault/vault_wallet.go`, and the
backend file `src/unnamed/part_000`).

Pure Go functions become Lean functions; methods mutating the wallet struct
become functions returning the updated struct together with the Go return
values; side effects that the claims observe (stdout printing, log warnings,
authentication posts) are returned explicitly; Go panics are modelled as a
distinct result constructor.  Remote-store reads, `crypto.Sign`, and
`types.SignTx` are opaque collaborators of the core and are passed in as
function parameters (oracles), so theorems quantify over their behaviour.
-/

namespace Quorum

/-- An Ethereum address: a 20-byte identifier, modelled as a natural number
below 2^160 (`common.Address`). -/
def Address := Nat

instance : DecidableEq Address := fun a b => Nat.decEq a b

instance : Repr Address := inferInstanceAs (Repr Nat)

/-- `accounts.URL`: scheme and path, as produced by `parseURL`. -/
structure URL where
  scheme : String
  path : String
deriving DecidableEq, Repr

/-- The zero value `accounts.URL{}`. -/
def emptyURL : URL := ⟨"", ""⟩

/-- `ClientData` from hashicorp_wallet.go (TLS fields omitted: no claim
observes them). -/
structure ClientData where
  url : String
  approle : String
deriving DecidableEq, Repr

/-- `SecretData` from hashicorp_wallet.go. -/
structure SecretData where
  name : String
  secretEngine : String
  version : Int
  accountID : String
  keyID : String
deriving DecidableEq, Repr

/-- A JSON leaf value stored in a secret's field (`interface{}` in Go).
The code only distinguishes strings from everything else. -/
inductive JValue where
  | jstr (s : String)
  | jnum (n : Int)
  | jbool (b : Bool)
  | jnull
deriving DecidableEq, Repr

/-- The value found at `secret.Data["data"]`: the code type-asserts it to
`map[string]interface{}`, so we record whether it is an object. -/
inductive TopValue where
  | obj (m : List (String × JValue))
  | nonObj (v : JValue)
deriving DecidableEq, Repr

/-- `*api.Secret`, restricted to the `Data` map the code reads. -/
structure ApiSecret where
  data : List (String × TopValue)
deriving DecidableEq, Repr

/-- Go map lookup on an association list (first binding wins, as Go maps
hold at most one binding per key). -/
def mapLookup {α : Type} (m : List (String × α)) (k : String) : Option α :=
  match m with
  | [] => none
  | (k', v) :: rest => if k' = k then some v else mapLookup rest k

/-- Go map assignment `m[k] = v`: replaces an existing binding or appends. -/
def mapInsert {α : Type} (m : List (String × α)) (k : String) (v : α) :
    List (String × α) :=
  match m with
  | [] => [(k, v)]
  | (k', v') :: rest =>
      if k' = k then (k, v) :: rest else (k', v') :: mapInsert rest k v

/-- Lookup in the `accountsSecretMap`, keyed by address. -/
def addrLookup (m : List (Address × SecretData)) (a : Address) :
    Option SecretData :=
  match m with
  | [] => none
  | (a', v) :: rest => if a' = a then some v else addrLookup rest a

/-- Go map assignment keyed by address. -/
def addrInsert (m : List (Address × SecretData)) (a : Address)
    (v : SecretData) : List (Address × SecretData) :=
  match m with
  | [] => [(a, v)]
  | (a', v') :: rest =>
      if a' = a then (a, v) :: rest else (a', v') :: addrInsert rest a v

/-- `accounts.Account`: address plus source locator URL. -/
structure Account where
  address : Address
  url : URL
deriving DecidableEq, Repr

/-- The in-memory private key: `dWords` models the slice of machine words
returned by `k.D.Bits()` on the scalar `D` of an `ecdsa.PrivateKey` (the
key's internal numeric representation).  We use the fixed four-64-bit-word
little-endian form of a scalar below 2^256; `Bits()` omits leading zero
words, which is immaterial to zeroing. -/
structure PrivKey where
  dWords : List Nat
deriving DecidableEq, Repr

/-- The zero value `&ecdsa.PrivateKey{}`: `D` is absent, no words. -/
def emptyKey : PrivKey := ⟨[]⟩

/-- `zeroKey` from hashicorp_wallet.go / vault_wallet.go: overwrites every
word of the key's scalar with zero, in place.  Modelled as producing the
final contents of the key buffer. -/
def zeroKey (k : PrivKey) : PrivKey := ⟨k.dWords.map (fun _ => 0)⟩

/-- All words of the key buffer are zero. -/
def isZeroedKey (k : PrivKey) : Bool := k.dWords.all (fun w => w = 0)

/-- Errors produced by the wallet code.  Library-level Go errors (from
`fmt.Errorf`, the vault client, parsers) are carried as their message
strings via `goError`; `hashicorp` is the `hashicorpError` wrapper struct
with its wrapped inner error's message when present. -/
inductive VErr where
  | walletClosed
  | unknownAccount
  | alreadyOpen
  | notSupported
  | goError (msg : String)
  | hashicorp (msg : String) (secret : SecretData) (walletUrl : URL)
      (inner : Option String)
deriving DecidableEq, Repr

/-- Outcome of a Go call: a normal value, an error return, or a panic. -/
inductive MethodResult (α : Type) where
  | ok (a : α)
  | err (e : VErr)
  | panicked (msg : String)
deriving DecidableEq, Repr

/-- `toRequestData` (hashicorp_wallet.go:53-65): path and version query
derived from a `SecretData`.  The Go function returns `("", nil, err)` when
the version is negative, i.e. no usable path or query; success and failure
are modelled with `Except`. -/
def SecretData.toRequestData (s : SecretData) :
    Except String (String × List (String × List String)) :=
  if s.version < 0 then
    Except.error "Hashicorp Vault secret version must be integer >= 0"
  else
    Except.ok (s.secretEngine ++ "/data/" ++ s.name,
      [("version", [toString s.version])])

/-- Go `strings.Split(s, "://")`: the substrings between the
non-overlapping occurrences of `://`, scanned left to right.  `acc` holds
the reversed characters of the current field. -/
def splitSchemeSep : List Char → List Char → List (List Char)
  | [], acc => [acc.reverse]
  | ':' :: '/' :: '/' :: rest, acc => acc.reverse :: splitSchemeSep rest []
  | c :: rest, acc => splitSchemeSep rest (c :: acc)

/-- `parseURL` (duplicated in hashicorp_wallet.go:419-428 and
vault_wallet.go:176-185): split on `://`, require exactly two parts with a
non-empty scheme. -/
def parseURL (url : String) : Except String URL :=
  let parts := (splitSchemeSep url.toList []).map (fun l => String.mk l)
  if parts.length ≠ 2 ∨ parts.headD "" = "" then
    Except.error "protocol scheme missing"
  else
    Except.ok ⟨parts.headD "", (parts.drop 1).headD ""⟩

/-- Value of a hex digit character, `none` for non-hex characters. -/
def hexVal (c : Char) : Option Nat :=
  if '0' ≤ c ∧ c ≤ '9' then some (c.toNat - '0'.toNat)
  else if 'a' ≤ c ∧ c ≤ 'f' then some (c.toNat - 'a'.toNat + 10)
  else if 'A' ≤ c ∧ c ≤ 'F' then some (c.toNat - 'A'.toNat + 10)
  else none

/-- The natural number denoted by a list of hex digit characters (non-hex
characters contribute 0; callers validate first). -/
def hexNatL (l : List Char) : Nat :=
  l.foldl (fun acc c => acc * 16 + ((hexVal c).getD 0)) 0

/-- The natural number denoted by a string of hex digits. -/
def hexToNat (s : String) : Nat := hexNatL s.toList

/-- Drop an optional `0x` / `0X` marker from a hex character list. -/
def dropHex0xL : List Char → List Char
  | '0' :: 'x' :: rest => rest
  | '0' :: 'X' :: rest => rest
  | l => l

/-- Modelled from the spec: `common.IsHexAddress` (go-ethereum library, not
under src) — "validate it is a well-formed address string", a hex address:
optionally `0x`-marked, exactly 40 hex digits. -/
def isHexAddress (s : String) : Bool :=
  let t := dropHex0xL s.toList
  t.length = 40 && t.all (fun c => (hexVal c).isSome)

/-- Modelled from the spec: `common.HexToAddress` (go-ethereum library, not
under src) — the 20-byte address denoted by a hex string. -/
def hexToAddress (s : String) : Address :=
  hexNatL (dropHex0xL s.toList) % 2 ^ 160

/-- Order of the secp256k1 group, the bound on a valid private scalar. -/
def secp256k1N : Nat :=
  115792089237316195423570985008687907852837564279074904382605163141518161494337

/-- The four little-endian 64-bit words of a scalar below 2^256. -/
def natToWords4 (d : Nat) : List Nat :=
  [d % 2 ^ 64, d / 2 ^ 64 % 2 ^ 64, d / 2 ^ 128 % 2 ^ 64, d / 2 ^ 192 % 2 ^ 64]

/-- Modelled from the spec: `crypto.HexToECDSA` (go-ethereum library, not
under src) — "parse as a private-key encoding, failing with a parse error if
malformed": a 64-hex-digit string denoting a scalar d with 0 < d < N. -/
def hexToECDSA (s : String) : Except String PrivKey :=
  if ¬ s.toList.all (fun c => (hexVal c).isSome) then
    Except.error "invalid hex character"
  else if s.length ≠ 64 then
    Except.error "invalid length, need 256 bits"
  else if secp256k1N ≤ hexToNat s then
    Except.error "invalid private key, bigger than or equal to N"
  else if hexToNat s = 0 then
    Except.error "invalid private key, zero or negative"
  else
    Except.ok ⟨natToWords4 (hexToNat s)⟩

/-- The vault client held by an open wallet (`api.Client`), restricted to
the token the code manages; `none` models a cleared token. -/
structure Client where
  token : Option String
deriving DecidableEq, Repr

/-- The `hashicorpWallet` struct (hashicorp_wallet.go:25-35).  `client =
none` models the nil client of a closed wallet; the update feed and logger
carry no claim-relevant state and are omitted. -/
structure HashicorpWallet where
  url : URL
  clientData : ClientData
  secrets : List SecretData
  accounts : List Account
  accountsSecretMap : List (Address × SecretData)
  client : Option Client
deriving DecidableEq, Repr

/-- The zero value `&hashicorpWallet{}`. -/
def emptyWallet : HashicorpWallet :=
  ⟨emptyURL, ⟨"", ""⟩, [], [], [], none⟩

/-- The remote store's read operation (`client.Logical().ReadWithData`),
an opaque collaborator: path and query parameters to a secret or a
transport error. -/
def ReadOracle : Type :=
  String → List (String × List String) → Except String ApiSecret

/-- Result of `getPrivateKey`: the Go function returns a key pointer and an
error (the error returns carry a fresh `&ecdsa.PrivateKey{}`), or panics. -/
inductive GPKResult where
  | ret (key : PrivKey) (err : Option VErr)
  | panicked (msg : String)
deriving DecidableEq, Repr

/-- `getPrivateKey` (hashicorp_wallet.go:431-469).  Returns the Go result
together with the lines printed to standard output.  The type assertions
`data.(map[string]interface{})` and the `panic("Not of type string")` are
modelled as panics; the `fmt.Printf` of the key string is recorded. -/
def getPrivateKey (_hw : HashicorpWallet) (read : ReadOracle)
    (secretData : SecretData) : GPKResult × List String :=
  match secretData.toRequestData with
  | Except.error e => (GPKResult.ret emptyKey (some (VErr.goError e)), [])
  | Except.ok (path, queryParams) =>
    match read path queryParams with
    | Except.error e => (GPKResult.ret emptyKey (some (VErr.goError e)), [])
    | Except.ok secret =>
      match mapLookup secret.data "data" with
      | none =>
          (GPKResult.panicked "interface conversion: interface is nil", [])
      | some (TopValue.nonObj _) =>
          (GPKResult.panicked "interface conversion: not a map", [])
      | some (TopValue.obj m) =>
        match mapLookup m secretData.keyID with
        | none => (GPKResult.ret emptyKey (some VErr.unknownAccount), [])
        | some k =>
          match k with
          | JValue.jstr pk =>
            let printed := ["Private key: " ++ pk ++ "\n"]
            match hexToECDSA pk with
            | Except.error e =>
                (GPKResult.ret emptyKey (some (VErr.goError e)), printed)
            | Except.ok key => (GPKResult.ret key none, printed)
          | _ => (GPKResult.panicked "Not of type string", [])
  -- The unused `hw` parameter mirrors the Go method receiver: `hw.read`
  -- only forwards to the client's ReadWithData, which `read` models.

/-- `getAccount` (hashicorp_wallet.go:365-407): resolve one secret
descriptor to an account, wrapping failures in `hashicorpError`. -/
def getAccount (hw : HashicorpWallet) (read : ReadOracle)
    (secretData : SecretData) : MethodResult Account :=
  match secretData.toRequestData with
  | Except.error e =>
      MethodResult.err
        (VErr.hashicorp "unable to get secret URL from data" secretData
          emptyURL (some e))
  | Except.ok (path, queryParams) =>
    match read path queryParams with
    | Except.error e =>
        MethodResult.err
          (VErr.hashicorp "unable to retrieve secret from vault" secretData
            hw.url (some e))
    | Except.ok secret =>
      match mapLookup secret.data "data" with
      | none =>
          MethodResult.panicked "interface conversion: interface is nil"
      | some (TopValue.nonObj _) =>
          MethodResult.panicked "interface conversion: not a map"
      | some (TopValue.obj m) =>
        match mapLookup m secretData.accountID with
        | none =>
            MethodResult.err
              (VErr.hashicorp "no value found in vault with provided AccountID"
                secretData hw.url none)
        | some acct =>
          match acct with
          | JValue.jstr strAcct =>
            if isHexAddress strAcct then
              let u := hw.clientData.url ++ "/v1/" ++ path ++ "?version=" ++
                toString secretData.version
              match parseURL u with
              | Except.error e =>
                  MethodResult.err
                    (VErr.hashicorp "unable to create account URL" secretData
                      hw.url (some e))
              | Except.ok url =>
                  MethodResult.ok ⟨hexToAddress strAcct, url⟩
            else
              MethodResult.err
                (VErr.hashicorp "unable to get account from vault" secretData
                  hw.url none)
          | _ =>
              MethodResult.err
                (VErr.hashicorp "AccountID value in vault is not plain string"
                  secretData hw.url none)

/-- Outcome of a signing call: the Go return value, the final contents of
the key object obtained during the call (`none` when no key object was
produced), and the lines printed to standard output. -/
structure SignOutcome (α : Type) where
  result : MethodResult α
  keyBuf : Option PrivKey
  stdout : List String
deriving DecidableEq, Repr

/-- Lift an opaque collaborator's `Except` result to a `MethodResult`. -/
def ofExcept {α : Type} : Except String α → MethodResult α
  | Except.ok a => MethodResult.ok a
  | Except.error e => MethodResult.err (VErr.goError e)

/-- The opaque signing primitive `crypto.Sign`: hash bytes and key to
signature bytes or an error. -/
def SignOracle : Type := List Nat → PrivKey → Except String (List Nat)

/-- `SignHash` (hashicorp_wallet.go:287-307): closed-wallet check, account
index lookup, key retrieval, sign, deferred `zeroKey` before return.  The
deferred zeroing runs only on paths where it was registered, i.e. after a
successful `getPrivateKey`; on a retrieval error the call returns the
helper's fresh empty key untouched. -/
def signHash (hw : HashicorpWallet) (read : ReadOracle)
    (cryptoSign : SignOracle) (account : Account) (hash : List Nat) :
    SignOutcome (List Nat) :=
  match hw.client with
  | none => ⟨MethodResult.err VErr.walletClosed, none, []⟩
  | some _ =>
    match addrLookup hw.accountsSecretMap account.address with
    | none => ⟨MethodResult.err VErr.unknownAccount, none, []⟩
    | some secretData =>
      match getPrivateKey hw read secretData with
      | (GPKResult.panicked msg, out) => ⟨MethodResult.panicked msg, none, out⟩
      | (GPKResult.ret key (some e), out) => ⟨MethodResult.err e, some key, out⟩
      | (GPKResult.ret key none, out) =>
          ⟨ofExcept (cryptoSign hash key), some (zeroKey key), out⟩

/-- A transaction, restricted to what the signing code inspects: the
privacy flag read by `tx.IsPrivate()` plus an opaque payload identity. -/
structure Transaction where
  isPrivate : Bool
  payload : Nat
deriving DecidableEq, Repr

/-- The encoding scheme handed to `types.SignTx`: `types.NewEIP155Signer
(chainID)` or `types.HomesteadSigner{}`. -/
inductive Signer where
  | eip155 (chainId : Int)
  | homestead
deriving DecidableEq, Repr

/-- The opaque signing primitive `types.SignTx`. -/
def TxSignOracle : Type :=
  Signer → Transaction → PrivKey → Except String Transaction

/-- `SignTx` (hashicorp_wallet.go:309-333): as `signHash`, then signer
selection — a non-nil chain id on a non-private transaction selects
EIP155, otherwise Homestead. -/
def signTx (hw : HashicorpWallet) (read : ReadOracle)
    (typesSignTx : TxSignOracle) (account : Account) (tx : Transaction)
    (chainID : Option Int) : SignOutcome Transaction :=
  match hw.client with
  | none => ⟨MethodResult.err VErr.walletClosed, none, []⟩
  | some _ =>
    match addrLookup hw.accountsSecretMap account.address with
    | none => ⟨MethodResult.err VErr.unknownAccount, none, []⟩
    | some secretData =>
      match getPrivateKey hw read secretData with
      | (GPKResult.panicked msg, out) => ⟨MethodResult.panicked msg, none, out⟩
      | (GPKResult.ret key (some e), out) => ⟨MethodResult.err e, some key, out⟩
      | (GPKResult.ret key none, out) =>
        match chainID with
        | some cid =>
          if ¬ tx.isPrivate then
            ⟨ofExcept (typesSignTx (Signer.eip155 cid) tx key),
              some (zeroKey key), out⟩
          else
            ⟨ofExcept (typesSignTx Signer.homestead tx key),
              some (zeroKey key), out⟩
        | none =>
            ⟨ofExcept (typesSignTx Signer.homestead tx key),
              some (zeroKey key), out⟩

/-- The scheme `SignTx` selects, as a function of the chain id argument and
the transaction's privacy flag (hashicorp_wallet.go:328-332,
vault_wallet.go:160-163). -/
def signerFor (chainID : Option Int) (isPriv : Bool) : Signer :=
  match chainID with
  | some cid => if ¬ isPriv then Signer.eip155 cid else Signer.homestead
  | none => Signer.homestead

/-- The loop body of `refreshAccounts` (hashicorp_wallet.go:476-485):
resolve each descriptor in order, accumulating the account slice and the
address-to-descriptor map; the first failure aborts. -/
def refreshLoop (hw : HashicorpWallet) (read : ReadOracle) :
    List SecretData → List Account → List (Address × SecretData) →
    MethodResult (List Account × List (Address × SecretData))
  | [], accts, m => MethodResult.ok (accts, m)
  | s :: rest, accts, m =>
    match getAccount hw read s with
    | MethodResult.ok a =>
        refreshLoop hw read rest (accts ++ [a]) (addrInsert m a.address s)
    | MethodResult.err e => MethodResult.err e
    | MethodResult.panicked msg => MethodResult.panicked msg

/-- `refreshAccounts` (hashicorp_wallet.go:471-491): the wallet's account
list and index are written only after the whole loop succeeds; an error
return leaves the receiver as it was. -/
def refreshAccounts (hw : HashicorpWallet) (read : ReadOracle) :
    HashicorpWallet × MethodResult Unit :=
  match refreshLoop hw read hw.secrets [] [] with
  | MethodResult.ok (accts, m) =>
      ({ hw with accounts := accts, accountsSecretMap := m },
        MethodResult.ok ())
  | MethodResult.err e => (hw, MethodResult.err e)
  | MethodResult.panicked msg => (hw, MethodResult.panicked msg)

/-- The process environment read at Open time: the `VAULT_ROLE_ID`,
`VAULT_SECRET_ID` and `VAULT_APPROLE_PATH` variables. -/
structure Env where
  roleId : Option String
  secretId : Option String
  approlePath : Option String
deriving DecidableEq, Repr

/-- The Go error message for a partial Approle configuration
(hashicorp_wallet.go:202, `%q` renders with double quotes). -/
def authConfigMsg : String :=
  "both \"VAULT_ROLE_ID\" and \"VAULT_SECRET_ID\" environment variables must be set to use Approle authentication"

/-- An authentication post made during Open: login path and auth data. -/
def LoginCall : Type := String × List (String × String)

/-- `Open` (hashicorp_wallet.go:170-233).  Opaque collaborators:
`newClient` is the result of `api.NewClient` (its token is the ambient
`VAULT_TOKEN`), `setAddress` the result of `client.SetAddress` on a given
URL, and `login` the store's `auth/{path}/login` write.  Returns the
updated wallet, the Go error, and the authentication posts performed. -/
def openWallet (hw : HashicorpWallet) (env : Env)
    (newClient : Except String Client) (setAddress : String → Option String)
    (login : String → List (String × String) → Except String String) :
    HashicorpWallet × Option VErr × List LoginCall :=
  if hw.client.isSome then (hw, some VErr.alreadyOpen, [])
  else
    match newClient with
    | Except.error e => (hw, some (VErr.goError e), [])
    | Except.ok client =>
      match setAddress hw.clientData.url with
      | some e => (hw, some (VErr.goError e), [])
      | none =>
        match env.roleId, env.secretId with
        | some _, none => (hw, some (VErr.goError authConfigMsg), [])
        | none, some _ => (hw, some (VErr.goError authConfigMsg), [])
        | none, none => ({ hw with client := some client }, none, [])
        | some r, some s =>
          let authData := [("role_id", r), ("secret_id", s)]
          let approlePath := env.approlePath.getD "approle"
          let hw' := { hw with
            clientData := { hw.clientData with approle := approlePath } }
          let loginPath := "auth/" ++ approlePath ++ "/login"
          match login loginPath authData with
          | Except.error e =>
              (hw', some (VErr.goError e), [(loginPath, authData)])
          | Except.ok token =>
              ({ hw' with client := some { client with token := some token } },
                none, [(loginPath, authData)])

/-- `Close` (hashicorp_wallet.go:236-250): no-op on a closed wallet;
otherwise clear the client's token, drop the client, and discard the
account list and index.  The third component is the observed final state of
the discarded client (after `ClearToken`). -/
def closeWallet (hw : HashicorpWallet) :
    HashicorpWallet × Option VErr × Option Client :=
  match hw.client with
  | none => (hw, none, none)
  | some c =>
      ({ hw with client := none, accounts := [], accountsSecretMap := [] },
        none, some { c with token := none })

/-- `HashicorpConfig` (backend file). -/
structure HashicorpConfig where
  clientData : ClientData
  secrets : List SecretData
deriving DecidableEq, Repr

/-- `newHashicorpWallet` (hashicorp_wallet.go:77-91): parse the configured
URL; on failure return the zero wallet together with the error. -/
def newHashicorpWallet (clientData : ClientData)
    (secrets : List SecretData) : HashicorpWallet × Option String :=
  match parseURL clientData.url with
  | Except.error e => (emptyWallet, some e)
  | Except.ok url =>
      ({ emptyWallet with
          clientData := clientData, secrets := secrets, url := url }, none)

/-- `NewHashicorpWallet` (hashicorp_wallet.go:67-73): delegates to
`newHashicorpWallet` and attaches the update feed and logger (which carry
no claim-relevant state). -/
def NewHashicorpWallet (clientData : ClientData)
    (secrets : List SecretData) : HashicorpWallet × Option String :=
  newHashicorpWallet clientData secrets

/-- The `hashicorpBackend` struct (backend file), with the warnings it has
logged recorded explicitly. -/
structure HashicorpBackend where
  wallets : List HashicorpWallet
  hashicorpConfigs : List HashicorpConfig
  logs : List String
deriving DecidableEq, Repr

/-- One iteration of the wallet-building loop of `refreshWallets` (backend
file, lines 58-68): build the wallet; a construction error is logged with
`log.Warn`, but the wallet is appended to the collection regardless. -/
def buildStep (acc : List HashicorpWallet × List String)
    (hc : HashicorpConfig) : List HashicorpWallet × List String :=
  match NewHashicorpWallet hc.clientData hc.secrets with
  | (w, some _) =>
      (acc.1 ++ [w], acc.2 ++ ["Unable to create Hashicorp wallet"])
  | (w, none) => (acc.1 ++ [w], acc.2)

/-- `refreshWallets` (backend file, lines 50-77): when the collection is
empty, build one wallet per configuration. -/
def refreshWallets (hb : HashicorpBackend) : HashicorpBackend :=
  if hb.wallets.length = 0 then
    let built := hb.hashicorpConfigs.foldl buildStep ([], [])
    { hb with wallets := built.1, logs := hb.logs ++ built.2 }
  else hb

/-- `NewHashicorpBackend` (backend file, lines 23-28). -/
def NewHashicorpBackend (configs : List HashicorpConfig) : HashicorpBackend :=
  refreshWallets ⟨[], configs, []⟩

/-- The `vaultWallet` struct (vault_wallet.go:18-24), restricted to the
cached account list; the `VaultService` behind it is opaque and its
operations are passed as oracles. -/
structure VaultWallet where
  accounts : List Account
deriving DecidableEq, Repr

/-- `vaultWallet.Contains` (vault_wallet.go:114-125). -/
def vwContains (w : VaultWallet) (account : Account) : Bool :=
  w.accounts.any (fun a =>
    a.address = account.address ∧
      (account.url = emptyURL ∨ a.url = account.url))

/-- The opaque `VaultService.getPrivateKey` of a vaultWallet: the service
implementation is not under src, so its outcome is a parameter. -/
def SvcKeyOracle : Type := Account → Except String PrivKey

/-- `vaultWallet.SignHash` (vault_wallet.go:135-147): the `Contains` check
runs first and is the only wallet-side guard; key retrieval is delegated to
the service, with deferred `zeroKey` registered after the error check. -/
def vwSignHash (w : VaultWallet) (svcGetKey : SvcKeyOracle)
    (cryptoSign : SignOracle) (account : Account) (hash : List Nat) :
    SignOutcome (List Nat) :=
  if ¬ vwContains w account then
    ⟨MethodResult.err VErr.unknownAccount, none, []⟩
  else
    match svcGetKey account with
    | Except.error e => ⟨MethodResult.err (VErr.goError e), none, []⟩
    | Except.ok key =>
        ⟨ofExcept (cryptoSign hash key), some (zeroKey key), []⟩

/-- `vaultWallet.SignTx` (vault_wallet.go:149-164). -/
def vwSignTx (w : VaultWallet) (svcGetKey : SvcKeyOracle)
    (typesSignTx : TxSignOracle) (account : Account) (tx : Transaction)
    (chainID : Option Int) : SignOutcome Transaction :=
  if ¬ vwContains w account then
    ⟨MethodResult.err VErr.unknownAccount, none, []⟩
  else
    match svcGetKey account with
    | Except.error e => ⟨MethodResult.err (VErr.goError e), none, []⟩
    | Except.ok key =>
      match chainID with
      | some cid =>
        if ¬ tx.isPrivate then
          ⟨ofExcept (typesSignTx (Signer.eip155 cid) tx key),
            some (zeroKey key), []⟩
        else
          ⟨ofExcept (typesSignTx Signer.homestead tx key),
            some (zeroKey key), []⟩
      | none =>
          ⟨ofExcept (typesSignTx Signer.homestead tx key),
            some (zeroKey key), []⟩

/-! Concrete fixtures used by witness and counterexample theorems. -/

/-- A syntactically valid stored private key: the scalar 1. -/
def exKeyHex : String :=
  "0000000000000000000000000000000000000000000000000000000000000001"

/-- A well-formed hex address string as stored in the vault. -/
def exAddrHex : String := "0xdeadbeefdeadbeefdeadbeefdeadbeefdeadbeef"

/-- A configured secret descriptor. -/
def exSecretData : SecretData := ⟨"myacct", "kv", 1, "address", "key"⟩

/-- A well-formed secret as returned by the store. -/
def exSecret : ApiSecret :=
  ⟨[("data", TopValue.obj
      [("address", JValue.jstr exAddrHex), ("key", JValue.jstr exKeyHex)])]⟩

/-- A store that answers every read with `exSecret`. -/
def exRead : ReadOracle := fun _ _ => Except.ok exSecret

/-- The account resolved from `exSecret` (empty locator: match by address). -/
def exAccount : Account := ⟨hexToAddress exAddrHex, emptyURL⟩

/-- An authenticated client. -/
def exClient : Client := ⟨some "ambient-token"⟩

/-- An open wallet whose index holds `exAccount` backed by `exSecretData`. -/
def exWallet : HashicorpWallet :=
  ⟨⟨"http", "localhost:8200"⟩, ⟨"http://localhost:8200", ""⟩, [exSecretData],
    [exAccount], [(hexToAddress exAddrHex, exSecretData)], some exClient⟩

/-- The parsed form of `exKeyHex`. -/
def exKey : PrivKey := ⟨[1, 0, 0, 0]⟩

/-- A 32-byte hash input. -/
def exHash : List Nat := List.replicate 32 7

/-- A signing primitive that succeeds with a fixed signature. -/
def exSign : SignOracle := fun _ _ => Except.ok [9, 9, 9]

/-- A transaction-signing primitive that succeeds with the transaction. -/
def exTxSign : TxSignOracle := fun _ tx _ => Except.ok tx

/-- A non-private transaction. -/
def exTx : Transaction := ⟨false, 7⟩

/-- A store whose key-field value is a JSON number, not a string. -/
def badKeyRead : ReadOracle :=
  fun _ _ => Except.ok ⟨[("data", TopValue.obj [("key", JValue.jnum 42)])]⟩

/-- A store whose key-field value is a malformed key encoding. -/
def badHexRead : ReadOracle :=
  fun _ _ =>
    Except.ok ⟨[("data", TopValue.obj [("key", JValue.jstr "zznothex")])]⟩

/-- A store whose reads fail with a transport error. -/
def failRead : ReadOracle := fun _ _ => Except.error "connection refused"

/-- A vault service with no session: key retrieval fails. -/
def svcClosed : SvcKeyOracle := fun _ => Except.error "wallet closed"

/-- Backend configurations: two well-formed, one with a malformed URL. -/
def cfgA : HashicorpConfig := ⟨⟨"http://a", ""⟩, []⟩

/-- The malformed configuration (its URL has no scheme). -/
def cfgBad : HashicorpConfig := ⟨⟨"badurl", ""⟩, []⟩

/-- The third, well-formed configuration. -/
def cfgC : HashicorpConfig := ⟨⟨"http://c", ""⟩, []⟩

/-- The stdout produced by a successful retrieval through `exRead`. -/
def exOut : List String := ["Private key: " ++ exKeyHex ++ "\n"]

/-- `exWallet` before Open: no client. -/
def closedWallet : HashicorpWallet := { exWallet with client := none }

/-!  Theorems.  -/

/-- C9: the secret-locator mapping `toRequestData` is a pure function of
the descriptor: for version ≥ 0 it yields request path
`{storage-engine}/data/{name}` and a query mapping the version key to the
decimal string of the version; for version < 0 it fails with the
invalid-descriptor error and yields no path or query. -/
theorem toRequestData_spec (s : SecretData) :
    (0 ≤ s.version →
      s.toRequestData =
        Except.ok (s.secretEngine ++ "/data/" ++ s.name,
          [("version", [toString s.version])])) ∧
    (s.version < 0 →
      s.toRequestData =
        Except.error "Hashicorp Vault secret version must be integer >= 0") := by
  constructor
  · intro h
    unfold SecretData.toRequestData
    rw [if_neg (by omega)]
  · intro h
    unfold SecretData.toRequestData
    rw [if_pos h]

/-- Witness for C9: a version-1 descriptor resolves, a version-(-1)
descriptor fails. -/
theorem toRequestData_spec_witness :
    SecretData.toRequestData ⟨"acct1", "kv", 1, "address", "key"⟩ =
      Except.ok ("kv/data/acct1", [("version", ["1"])]) ∧
    SecretData.toRequestData ⟨"acct1", "kv", -1, "address", "key"⟩ =
      Except.error "Hashicorp Vault secret version must be integer >= 0" :=
  ⟨(toRequestData_spec ⟨"acct1", "kv", 1, "address", "key"⟩).1 (by decide),
    (toRequestData_spec ⟨"acct1", "kv", -1, "address", "key"⟩).2 (by decide)⟩

/-- C8: for every SignTx call that reaches signing (on the hashicorpWallet
and on the vaultWallet), the encoding scheme is selected purely from (chain
id present?, transaction private?): a non-nil chain id on a non-private
transaction selects EIP155 with that chain id, every other case selects
Homestead; the result is the opaque `types.SignTx` applied at exactly that
scheme. -/
theorem signTx_scheme_selection
    (hw : HashicorpWallet) (read : ReadOracle) (stx : TxSignOracle)
    (acct : Account) (tx : Transaction) (chainID : Option Int)
    (c : Client) (sd : SecretData) (k : PrivKey) (out : List String)
    (hc : hw.client = some c)
    (hm : addrLookup hw.accountsSecretMap acct.address = some sd)
    (hk : getPrivateKey hw read sd = (GPKResult.ret k none, out)) :
    (signTx hw read stx acct tx chainID).result =
      ofExcept (stx (signerFor chainID tx.isPrivate) tx k) ∧
    (∀ w svc k', vwContains w acct = true → svc acct = Except.ok k' →
      (vwSignTx w svc stx acct tx chainID).result =
        ofExcept (stx (signerFor chainID tx.isPrivate) tx k')) ∧
    (∀ cid, chainID = some cid → tx.isPrivate = false →
      signerFor chainID tx.isPrivate = Signer.eip155 cid) ∧
    ((chainID = none ∨ tx.isPrivate = true) →
      signerFor chainID tx.isPrivate = Signer.homestead) := by
  refine ⟨?_, ?_, ?_, ?_⟩
  · simp only [signTx, hc, hm, hk]
    cases chainID with
    | none => simp [signerFor]
    | some cid =>
      by_cases hp : tx.isPrivate = true
      · simp [signerFor, hp]
      · simp only [Bool.not_eq_true] at hp
        simp [signerFor, hp]
  · intro w svc k' hcont hsvc
    simp only [vwSignTx, hcont, hsvc]
    cases chainID with
    | none => simp [signerFor]
    | some cid =>
      by_cases hp : tx.isPrivate = true
      · simp [signerFor, hp]
      · simp only [Bool.not_eq_true] at hp
        simp [signerFor, hp]
  · intro cid hcid hp
    subst hcid
    simp [signerFor, hp]
  · intro h
    rcases h with h | h
    · subst h; rfl
    · cases chainID with
      | none => rfl
      | some cid => simp [signerFor, h]

/-- Witness for C8: a chain id of 10 on a non-private transaction signs via
EIP155(10); without a chain id the Homestead scheme is selected. -/
theorem signTx_scheme_selection_witness :
    (signTx exWallet exRead exTxSign exAccount exTx (some 10)).result =
      ofExcept (exTxSign (signerFor (some 10) exTx.isPrivate) exTx exKey) ∧
    signerFor (some 10) exTx.isPrivate = Signer.eip155 10 ∧
    signerFor none exTx.isPrivate = Signer.homestead :=
  ⟨(signTx_scheme_selection exWallet exRead exTxSign exAccount exTx (some 10)
      exClient exSecretData exKey exOut rfl rfl rfl).1,
    (signTx_scheme_selection exWallet exRead exTxSign exAccount exTx (some 10)
      exClient exSecretData exKey exOut rfl rfl rfl).2.2.1 10 rfl rfl,
    (signTx_scheme_selection exWallet exRead exTxSign exAccount exTx none
      exClient exSecretData exKey exOut rfl rfl rfl).2.2.2 (Or.inl rfl)⟩

/-- C10: a second Open without an intervening Close fails with the
already-open error leaving the wallet intact; Close on a wallet with no
session is a successful no-op; Close never returns an error, including when
called twice; Close on an open wallet clears the session token and
discards the account list and index. -/
theorem open_close_lifecycle (hw : HashicorpWallet) (c : Client) :
    (∀ env nc sa lg, hw.client = some c →
      openWallet hw env nc sa lg = (hw, some VErr.alreadyOpen, [])) ∧
    (hw.client = none → closeWallet hw = (hw, none, none)) ∧
    ((closeWallet hw).2.1 = none ∧
      (closeWallet (closeWallet hw).1).2.1 = none) ∧
    (hw.client = some c →
      closeWallet hw =
        ({ hw with client := none, accounts := [], accountsSecretMap := [] },
          none, some { c with token := none })) := by
  refine ⟨?_, ?_, ⟨?_, ?_⟩, ?_⟩
  · intro env nc sa lg hc
    simp [openWallet, hc]
  · intro hc
    simp [closeWallet, hc]
  · cases hc : hw.client <;> simp [closeWallet, hc]
  · cases hc : hw.client <;> simp [closeWallet, hc]
  · intro hc
    simp [closeWallet, hc]

/-- Witness for C10: Open on the already-open `exWallet` fails with
already-open; Close on the zero (closed) wallet is a no-op; Close on
`exWallet` clears everything. -/
theorem open_close_lifecycle_witness :
    openWallet exWallet ⟨none, none, none⟩ (Except.ok exClient)
        (fun _ => none) (fun _ _ => Except.error "unused") =
      (exWallet, some VErr.alreadyOpen, []) ∧
    closeWallet emptyWallet = (emptyWallet, none, none) ∧
    closeWallet exWallet =
      ({ exWallet with
          client := none, accounts := [], accountsSecretMap := [] },
        none, some ⟨none⟩) :=
  ⟨(open_close_lifecycle exWallet exClient).1 ⟨none, none, none⟩
      (Except.ok exClient) (fun _ => none) (fun _ _ => Except.error "unused")
      rfl,
    (open_close_lifecycle emptyWallet exClient).2.1 rfl,
    (open_close_lifecycle exWallet exClient).2.2.2 rfl⟩

/-- C4 (code bug): when the key-field value in the secret is present but is
not a plain string, `getPrivateKey` panics with "Not of type string"
instead of returning a format error (the code's own TODO comment says an
error should be thrown); a malformed key encoding does produce a parse
error return. -/
theorem getPrivateKey_nonstring_panics :
    getPrivateKey emptyWallet badKeyRead exSecretData =
      (GPKResult.panicked "Not of type string", []) ∧
    getPrivateKey emptyWallet badHexRead exSecretData =
      (GPKResult.ret emptyKey (some (VErr.goError "invalid hex character")),
        ["Private key: zznothex\n"]) :=
  ⟨rfl, rfl⟩

/-- The wallet-building fold of `refreshWallets`: every configuration
contributes a wallet, failed configurations also contribute a warning. -/
theorem buildStep_foldl (cfgs : List HashicorpConfig)
    (ws : List HashicorpWallet) (ls : List String) :
    cfgs.foldl buildStep (ws, ls) =
      (ws ++ cfgs.map
          (fun hc => (NewHashicorpWallet hc.clientData hc.secrets).1),
        ls ++ (cfgs.filter
          (fun hc =>
            ((NewHashicorpWallet hc.clientData hc.secrets).2).isSome)).map
            (fun _ => "Unable to create Hashicorp wallet")) := by
  induction cfgs generalizing ws ls with
  | nil => simp
  | cons hc rest ih =>
    simp only [List.foldl_cons, List.map_cons, List.filter_cons]
    rcases hnw : NewHashicorpWallet hc.clientData hc.secrets with ⟨w, err⟩
    cases err with
    | none =>
      simp only [buildStep, hnw, Option.isSome_none, Bool.false_eq_true,
        if_false, ih]
      simp
    | some e =>
      simp only [buildStep, hnw, Option.isSome_some, if_true, List.map_cons,
        ih]
      simp

/-- C3 (amended): backend construction never fails as a whole; every
configuration yields an entry in the wallet collection — a configuration
whose wallet cannot be built is logged with a warning but its (zero-state)
wallet is still appended rather than omitted. -/
theorem backend_construction_total (configs : List HashicorpConfig) :
    (NewHashicorpBackend configs).wallets =
      configs.map (fun hc => (NewHashicorpWallet hc.clientData hc.secrets).1) ∧
    (NewHashicorpBackend configs).wallets.length = configs.length ∧
    (NewHashicorpBackend configs).logs =
      (configs.filter
        (fun hc =>
          ((NewHashicorpWallet hc.clientData hc.secrets).2).isSome)).map
        (fun _ => "Unable to create Hashicorp wallet") := by
  unfold NewHashicorpBackend refreshWallets
  simp [buildStep_foldl]

/-- C3 (counterexample): constructing a backend from 3 configurations where
the 2nd has a malformed URL yields a 3-wallet collection — the failed
wallet is appended (as the zero wallet), not omitted, so the collection is
not the claimed 2-wallet one. -/
theorem backend_includes_failed_wallet :
    (NewHashicorpBackend [cfgA, cfgBad, cfgC]).wallets.length = 3 ∧
    (NewHashicorpBackend [cfgA, cfgBad, cfgC]).wallets.getD 1 exWallet =
      emptyWallet ∧
    ¬ (NewHashicorpBackend [cfgA, cfgBad, cfgC]).wallets.length = 2 :=
  ⟨rfl, rfl, by decide⟩

/-- C5: at Open time on a closed wallet (client construction and address
setting succeeding), a partial Approle environment — exactly one of role-id
and secret-id set — fails with the Approle configuration error and performs
no authentication post; with neither set, Open completes using the ambient
token without an authentication exchange; with both set, Open posts to the
approle login path and installs the returned session token before
completing. -/
theorem open_approle_env (hw : HashicorpWallet) (env : Env) (c : Client)
    (sa : String → Option String)
    (lg : String → List (String × String) → Except String String)
    (hclosed : hw.client = none)
    (hsa : sa hw.clientData.url = none) :
    (∀ r, env.roleId = some r → env.secretId = none →
      openWallet hw env (Except.ok c) sa lg =
        (hw, some (VErr.goError authConfigMsg), [])) ∧
    (∀ s, env.roleId = none → env.secretId = some s →
      openWallet hw env (Except.ok c) sa lg =
        (hw, some (VErr.goError authConfigMsg), [])) ∧
    (env.roleId = none → env.secretId = none →
      openWallet hw env (Except.ok c) sa lg =
        ({ hw with client := some c }, none, [])) ∧
    (∀ r s t, env.roleId = some r → env.secretId = some s →
      lg ("auth/" ++ env.approlePath.getD "approle" ++ "/login")
          [("role_id", r), ("secret_id", s)] = Except.ok t →
      openWallet hw env (Except.ok c) sa lg =
        ({ hw with
            clientData :=
              { hw.clientData with
                  approle := env.approlePath.getD "approle" },
            client := some { c with token := some t } },
          none,
          [("auth/" ++ env.approlePath.getD "approle" ++ "/login",
            [("role_id", r), ("secret_id", s)])])) := by
  refine ⟨?_, ?_, ?_, ?_⟩
  · intro r hr hs
    simp [openWallet, hclosed, hsa, hr, hs]
  · intro s hr hs
    simp [openWallet, hclosed, hsa, hr, hs]
  · intro hr hs
    simp [openWallet, hclosed, hsa, hr, hs]
  · intro r s t hr hs hlg
    simp [openWallet, hclosed, hsa, hr, hs, hlg]

/-- Witness for C5: the three Approle environment shapes at a concrete
closed wallet. -/
theorem open_approle_env_witness :
    openWallet closedWallet ⟨some "role", none, none⟩ (Except.ok exClient)
        (fun _ => none) (fun _ _ => Except.ok "session-token") =
      (closedWallet, some (VErr.goError authConfigMsg), []) ∧
    openWallet closedWallet ⟨none, none, none⟩ (Except.ok exClient)
        (fun _ => none) (fun _ _ => Except.ok "session-token") =
      ({ closedWallet with client := some exClient }, none, []) ∧
    openWallet closedWallet ⟨some "role", some "secret", none⟩
        (Except.ok exClient) (fun _ => none)
        (fun _ _ => Except.ok "session-token") =
      ({ closedWallet with
          clientData := { closedWallet.clientData with approle := "approle" },
          client := some { exClient with token := some "session-token" } },
        none,
        [("auth/approle/login",
          [("role_id", "role"), ("secret_id", "secret")])]) :=
  ⟨(open_approle_env closedWallet ⟨some "role", none, none⟩ exClient
      (fun _ => none) (fun _ _ => Except.ok "session-token") rfl rfl).1
      "role" rfl rfl,
    (open_approle_env closedWallet ⟨none, none, none⟩ exClient
      (fun _ => none) (fun _ _ => Except.ok "session-token") rfl rfl).2.2.1
      rfl rfl,
    (open_approle_env closedWallet ⟨some "role", some "secret", none⟩ exClient
      (fun _ => none) (fun _ _ => Except.ok "session-token") rfl rfl).2.2.2
      "role" "secret" "session-token" rfl rfl rfl⟩

/-- Inversion of `getPrivateKey`: a success return means the vault held a
string key-field value that parsed, and exactly that string was printed; an
error return always carries the fresh empty key. -/
theorem getPrivateKey_inv (hw : HashicorpWallet) (read : ReadOracle)
    (sd : SecretData) :
    (∀ k out, getPrivateKey hw read sd = (GPKResult.ret k none, out) →
      ∃ pk, hexToECDSA pk = Except.ok k ∧
        out = ["Private key: " ++ pk ++ "\n"]) ∧
    (∀ k e out, getPrivateKey hw read sd = (GPKResult.ret k (some e), out) →
      k = emptyKey) := by
  constructor
  · intro k out h
    unfold getPrivateKey at h
    repeat' split at h
    all_goals simp_all
    rename_i pk hpk x key heq
    exact ⟨pk, heq, h.2.symm⟩
  · intro k e out h
    unfold getPrivateKey at h
    repeat' split at h
    all_goals simp_all

/-- C7: every successful private-key retrieval prints the raw hex-encoded
private key to the process's standard output (the unconditional
`fmt.Printf` in `getPrivateKey`), and a signing call that reaches signing
emits exactly that output — the output channel reveals the secret key
material. -/
theorem getPrivateKey_reveals_key (hw : HashicorpWallet) (read : ReadOracle)
    (sd : SecretData) (k : PrivKey) (out : List String) (c : Client)
    (acct : Account) (cs : SignOracle) (hash : List Nat)
    (h : getPrivateKey hw read sd = (GPKResult.ret k none, out))
    (hc : hw.client = some c)
    (hm : addrLookup hw.accountsSecretMap acct.address = some sd) :
    (∃ pk, hexToECDSA pk = Except.ok k ∧
      out = ["Private key: " ++ pk ++ "\n"]) ∧
    (signHash hw read cs acct hash).stdout = out := by
  refine ⟨(getPrivateKey_inv hw read sd).1 k out h, ?_⟩
  simp only [signHash, hc, hm, h]

/-- Witness for C7: the concrete store yields the key `exKeyHex`, and the
wallet's SignHash prints it. -/
theorem getPrivateKey_reveals_key_witness :
    (∃ pk, hexToECDSA pk = Except.ok exKey ∧
      exOut = ["Private key: " ++ pk ++ "\n"]) ∧
    (signHash exWallet exRead exSign exAccount exHash).stdout = exOut :=
  getPrivateKey_reveals_key exWallet exRead exSecretData exKey exOut exClient
    exAccount exSign exHash rfl rfl rfl

/-- Zeroing a key leaves every word of its representation zero. -/
theorem zeroKey_isZeroed (k : PrivKey) : isZeroedKey (zeroKey k) = true := by
  simp [isZeroedKey, zeroKey]

/-- C1: every SignHash or SignTx call that proceeds past key retrieval —
whether the subsequent signing succeeds or fails, for every behaviour of
the opaque signing primitives — leaves the key object obtained for the
call overwritten with zeros (same number of words, all zero) at return;
and every error return inside `getPrivateKey` carries a key representation
that is all-zero (the fresh empty key — no partially constructed key
escapes non-zeroed). -/
theorem sign_zeroes_key (hw : HashicorpWallet) (read : ReadOracle)
    (cs : SignOracle) (stx : TxSignOracle) (acct : Account)
    (hash : List Nat) (tx : Transaction) (chainID : Option Int) (c : Client)
    (sd : SecretData)
    (hc : hw.client = some c)
    (hm : addrLookup hw.accountsSecretMap acct.address = some sd) :
    (∀ k out, getPrivateKey hw read sd = (GPKResult.ret k none, out) →
      (signHash hw read cs acct hash).keyBuf = some (zeroKey k) ∧
      (signTx hw read stx acct tx chainID).keyBuf = some (zeroKey k) ∧
      isZeroedKey (zeroKey k) = true ∧
      (zeroKey k).dWords.length = k.dWords.length) ∧
    (∀ k e out, getPrivateKey hw read sd = (GPKResult.ret k (some e), out) →
      isZeroedKey k = true) := by
  constructor
  · intro k out h
    refine ⟨?_, ?_, zeroKey_isZeroed k, by simp [zeroKey]⟩
    · simp only [signHash, hc, hm, h]
    · simp only [signTx, hc, hm, h]
      cases chainID with
      | none => simp
      | some cid => by_cases hp : tx.isPrivate = true <;> simp [hp]
  · intro k e out h
    have hk := (getPrivateKey_inv hw read sd).2 k e out h
    subst hk
    rfl

/-- Witness for C1: with the concrete store, both signing calls return the
zeroed key buffer; with a malformed stored key, the helper's error return
carries the all-zero empty key. -/
theorem sign_zeroes_key_witness :
    (signHash exWallet exRead exSign exAccount exHash).keyBuf =
      some (zeroKey exKey) ∧
    (signTx exWallet exRead exTxSign exAccount exTx none).keyBuf =
      some (zeroKey exKey) ∧
    isZeroedKey (zeroKey exKey) = true ∧
    isZeroedKey emptyKey = true :=
  ⟨((sign_zeroes_key exWallet exRead exSign exTxSign exAccount exHash exTx
      none exClient exSecretData rfl rfl).1 exKey exOut rfl).1,
    ((sign_zeroes_key exWallet exRead exSign exTxSign exAccount exHash exTx
      none exClient exSecretData rfl rfl).1 exKey exOut rfl).2.1,
    ((sign_zeroes_key exWallet exRead exSign exTxSign exAccount exHash exTx
      none exClient exSecretData rfl rfl).1 exKey exOut rfl).2.2.1,
    (sign_zeroes_key exWallet badHexRead exSign exTxSign exAccount exHash
      exTx none exClient exSecretData rfl rfl).2 emptyKey
      (VErr.goError "invalid hex character") ["Private key: zznothex\n"] rfl⟩

/-- A `refreshAccounts` error return exposes the first failing descriptor:
every descriptor before it resolved, and the returned error is that
descriptor's resolution error. -/
theorem refreshLoop_err_first (hw : HashicorpWallet) (read : ReadOracle) :
    ∀ (ss : List SecretData) (accts : List Account)
      (m : List (Address × SecretData)) (e : VErr),
      refreshLoop hw read ss accts m = MethodResult.err e →
      ∃ pre s post, ss = pre ++ s :: post ∧
        (∀ s' ∈ pre, ∃ a, getAccount hw read s' = MethodResult.ok a) ∧
        getAccount hw read s = MethodResult.err e := by
  intro ss
  induction ss with
  | nil => intro accts m e h; simp [refreshLoop] at h
  | cons s rest ih =>
    intro accts m e h
    unfold refreshLoop at h
    cases hg : getAccount hw read s with
    | ok a =>
      simp only [hg] at h
      obtain ⟨pre, s', post, hss, hpre, hs⟩ := ih _ _ _ h
      refine ⟨s :: pre, s', post, by rw [hss]; rfl, ?_, hs⟩
      intro x hx
      rcases List.mem_cons.mp hx with hx | hx
      · exact ⟨a, by rw [hx, hg]⟩
      · exact hpre x hx
    | err e2 =>
      simp only [hg] at h
      simp at h
      exact ⟨[], s, rest, rfl, by simp, by rw [hg, h]⟩
    | panicked msg =>
      simp only [hg] at h
      simp at h

/-- When every configured descriptor resolves, the refresh loop
succeeds. -/
theorem refreshLoop_ok_of_all (hw : HashicorpWallet) (read : ReadOracle) :
    ∀ (ss : List SecretData) (accts : List Account)
      (m : List (Address × SecretData)),
      (∀ s ∈ ss, ∃ a, getAccount hw read s = MethodResult.ok a) →
      ∃ res, refreshLoop hw read ss accts m = MethodResult.ok res := by
  intro ss
  induction ss with
  | nil => intro accts m _; exact ⟨(accts, m), rfl⟩
  | cons s rest ih =>
    intro accts m hall
    obtain ⟨a, ha⟩ := hall s (List.mem_cons_self s rest)
    obtain ⟨res, hres⟩ := ih (accts ++ [a]) (addrInsert m a.address s)
      (fun s2 hs2 => hall s2 (List.mem_cons_of_mem s hs2))
    refine ⟨res, ?_⟩
    unfold refreshLoop
    simp only [ha]
    exact hres

/-- C2: `refreshAccounts` is all-or-nothing: if resolving any descriptor
fails, the call returns the first such error and the wallet's account list
and account-to-secret index are exactly as they were before the call; only
when every descriptor resolves are the list and index replaced. -/
theorem refreshAccounts_all_or_nothing (hw : HashicorpWallet)
    (read : ReadOracle) :
    (∀ e, (refreshAccounts hw read).2 = MethodResult.err e →
      (refreshAccounts hw read).1 = hw ∧
      ∃ pre s post, hw.secrets = pre ++ s :: post ∧
        (∀ s' ∈ pre, ∃ a, getAccount hw read s' = MethodResult.ok a) ∧
        getAccount hw read s = MethodResult.err e) ∧
    ((∀ s ∈ hw.secrets, ∃ a, getAccount hw read s = MethodResult.ok a) →
      ∃ accts m, refreshAccounts hw read =
        ({ hw with accounts := accts, accountsSecretMap := m },
          MethodResult.ok ())) := by
  constructor
  · intro e he
    unfold refreshAccounts at he ⊢
    cases hl : refreshLoop hw read hw.secrets [] [] with
    | ok res =>
      obtain ⟨accts, m⟩ := res
      simp only [hl] at he
      simp at he
    | err e2 =>
      simp only [hl] at he
      simp at he
      subst he
      exact ⟨by simp only [hl],
        refreshLoop_err_first hw read hw.secrets [] [] e2 hl⟩
    | panicked msg =>
      simp only [hl] at he
      simp at he
  · intro hall
    obtain ⟨⟨accts, m⟩, hres⟩ :=
      refreshLoop_ok_of_all hw read hw.secrets [] [] hall
    refine ⟨accts, m, ?_⟩
    unfold refreshAccounts
    simp only [hres]

/-- Witness for C2: a store whose reads fail leaves `exWallet` exactly as
it was and surfaces the wrapped transport error; the working store replaces
the list and index. -/
theorem refreshAccounts_all_or_nothing_witness :
    ((refreshAccounts exWallet failRead).1 = exWallet ∧
      ∃ pre s post, exWallet.secrets = pre ++ s :: post ∧
        (∀ s' ∈ pre, ∃ a,
          getAccount exWallet failRead s' = MethodResult.ok a) ∧
        getAccount exWallet failRead s =
          MethodResult.err
            (VErr.hashicorp "unable to retrieve secret from vault"
              exSecretData exWallet.url (some "connection refused"))) ∧
    (∃ accts m, refreshAccounts exWallet exRead =
      ({ exWallet with accounts := accts, accountsSecretMap := m },
        MethodResult.ok ())) :=
  ⟨(refreshAccounts_all_or_nothing exWallet failRead).1
      (VErr.hashicorp "unable to retrieve secret from vault" exSecretData
        exWallet.url (some "connection refused")) rfl,
    (refreshAccounts_all_or_nothing exWallet exRead).2
      (fun s hs => by
        have hsx : s = exSecretData := by
          simpa [exWallet] using hs
        rw [hsx]
        exact ⟨_, rfl⟩)⟩

/-- C6 (counterexample): a vaultWallet with no session (its service rejects
key retrieval as closed) and an empty cached account list rejects SignHash
with the unknown-account error — not the wallet-closed error the claim
requires whenever no session exists. -/
theorem vw_closed_signs_unknownAccount :
    (vwSignHash ⟨[]⟩ svcClosed exSign exAccount exHash).result =
      MethodResult.err VErr.unknownAccount ∧
    MethodResult.err (α := List Nat) VErr.unknownAccount ≠
      MethodResult.err VErr.walletClosed :=
  ⟨rfl, by decide⟩

/-- C6 (amended): on the hashicorpWallet, SignHash/SignTx fail with the
wallet-closed error whenever no session exists (checked first) and with
the unknown-account error when a session exists but the account is not in
the account index, and signing succeeds for a present account whose stored
key is syntactically valid; on the vaultWallet the contains check runs
first and there is no wallet-side session check, so an absent account
fails with unknown-account even when no session exists, while a present
account with a valid key signs successfully. -/
theorem sign_rejection_rules (hw : HashicorpWallet) (read : ReadOracle)
    (cs : SignOracle) (stx : TxSignOracle) (acct : Account)
    (hash : List Nat) (tx : Transaction) (chainID : Option Int) :
    (hw.client = none →
      (signHash hw read cs acct hash).result =
        MethodResult.err VErr.walletClosed ∧
      (signTx hw read stx acct tx chainID).result =
        MethodResult.err VErr.walletClosed) ∧
    (∀ c, hw.client = some c →
      addrLookup hw.accountsSecretMap acct.address = none →
      (signHash hw read cs acct hash).result =
        MethodResult.err VErr.unknownAccount ∧
      (signTx hw read stx acct tx chainID).result =
        MethodResult.err VErr.unknownAccount) ∧
    (∀ c sd k out sig, hw.client = some c →
      addrLookup hw.accountsSecretMap acct.address = some sd →
      getPrivateKey hw read sd = (GPKResult.ret k none, out) →
      cs hash k = Except.ok sig →
      (signHash hw read cs acct hash).result = MethodResult.ok sig) ∧
    (∀ c sd k out tx2, hw.client = some c →
      addrLookup hw.accountsSecretMap acct.address = some sd →
      getPrivateKey hw read sd = (GPKResult.ret k none, out) →
      stx (signerFor chainID tx.isPrivate) tx k = Except.ok tx2 →
      (signTx hw read stx acct tx chainID).result = MethodResult.ok tx2) ∧
    (∀ (w : VaultWallet) (svc : SvcKeyOracle), vwContains w acct = false →
      (vwSignHash w svc cs acct hash).result =
        MethodResult.err VErr.unknownAccount ∧
      (vwSignTx w svc stx acct tx chainID).result =
        MethodResult.err VErr.unknownAccount) ∧
    (∀ (w : VaultWallet) (svc : SvcKeyOracle) k sig,
      vwContains w acct = true → svc acct = Except.ok k →
      cs hash k = Except.ok sig →
      (vwSignHash w svc cs acct hash).result = MethodResult.ok sig) := by
  refine ⟨?_, ?_, ?_, ?_, ?_, ?_⟩
  · intro hc
    exact ⟨by simp [signHash, hc], by simp [signTx, hc]⟩
  · intro c hc hm
    exact ⟨by simp [signHash, hc, hm], by simp [signTx, hc, hm]⟩
  · intro c sd k out sig hc hm hk hs
    simp [signHash, hc, hm, hk, hs, ofExcept]
  · intro c sd k out tx2 hc hm hk hs
    simp only [signTx, hc, hm, hk]
    cases chainID with
    | none =>
      simp only [signerFor] at hs
      simp [hs, ofExcept]
    | some cid =>
      by_cases hp : tx.isPrivate = true
      · simp [signerFor, hp] at hs
        simp [hp, hs, ofExcept]
      · simp only [Bool.not_eq_true] at hp
        simp [signerFor, hp] at hs
        simp [hp, hs, ofExcept]
  · intro w svc hcont
    exact ⟨by simp [vwSignHash, hcont], by simp [vwSignTx, hcont]⟩
  · intro w svc k sig hcont hsvc hs
    simp [vwSignHash, hcont, hsvc, hs, ofExcept]

/-- Witness for C6 (amended): concrete closed-wallet, unknown-account and
successful-signing runs on both wallet types. -/
theorem sign_rejection_rules_witness :
    (signHash closedWallet exRead exSign exAccount exHash).result =
      MethodResult.err VErr.walletClosed ∧
    (signHash exWallet exRead exSign ⟨((0 : Nat) : Address), emptyURL⟩ exHash).result =
      MethodResult.err VErr.unknownAccount ∧
    (signHash exWallet exRead exSign exAccount exHash).result =
      MethodResult.ok [9, 9, 9] ∧
    (signTx exWallet exRead exTxSign exAccount exTx (some 10)).result =
      MethodResult.ok exTx ∧
    (vwSignHash ⟨[exAccount]⟩ (fun _ => Except.ok exKey) exSign exAccount
        exHash).result = MethodResult.ok [9, 9, 9] :=
  ⟨((sign_rejection_rules closedWallet exRead exSign exTxSign exAccount
      exHash exTx none).1 rfl).1,
    ((sign_rejection_rules exWallet exRead exSign exTxSign ⟨((0 : Nat) : Address), emptyURL⟩
      exHash exTx none).2.1 exClient rfl rfl).1,
    (sign_rejection_rules exWallet exRead exSign exTxSign exAccount exHash
      exTx none).2.2.1 exClient exSecretData exKey exOut [9, 9, 9] rfl rfl
      rfl rfl,
    (sign_rejection_rules exWallet exRead exSign exTxSign exAccount exHash
      exTx (some 10)).2.2.2.1 exClient exSecretData exKey exOut exTx rfl rfl
      rfl rfl,
    (sign_rejection_rules exWallet exRead exSign exTxSign exAccount exHash
      exTx none).2.2.2.2.2 ⟨[exAccount]⟩ (fun _ => Except.ok exKey) exKey
      [9, 9, 9] rfl rfl rfl⟩

end Quorum
